import Mathlib

/-!
Verification model of the BMTC stop-arrivals Cloudflare Pages function
(`functions/api/bmtc/stops.js`): the live/static timetable reconciliation
core. JavaScript strings are modelled as Lean `String`s (lists of
characters); JavaScript numbers that may be `NaN` are modelled as
`Option Int` with `none` for `NaN`.
-/

namespace OrrBus

/-- Model of JavaScript `String.prototype.trim`: drop whitespace characters
from both ends (restricted to the ASCII whitespace that `Char.isWhitespace`
recognises, which covers the characters appearing in this data). -/
def trimStr (s : String) : String :=
  ⟨((s.data.dropWhile Char.isWhitespace).reverse.dropWhile Char.isWhitespace).reverse⟩

/-- Helper for `containsSubstr`: does `pat` occur as a contiguous run
starting at some position of the second list? -/
def containsAux (pat : List Char) : List Char → Bool
  | [] => pat.isEmpty
  | c :: cs => pat.isPrefixOf (c :: cs) || containsAux pat cs

/-- Model of JavaScript `String.prototype.includes`. -/
def containsSubstr (s pat : String) : Bool :=
  containsAux pat.data s.data

/-- Model of JavaScript `String.prototype.split` with a single-character
separator: every occurrence splits, empty pieces are kept. -/
def jsSplitAux (sep : Char) : List Char → String → List String
  | [], acc => [acc]
  | c :: cs, acc => if c = sep then acc :: jsSplitAux sep cs "" else jsSplitAux sep cs (acc.push c)

/-- JavaScript `s.split(sep)` for a one-character separator. -/
def jsSplit (sep : Char) (s : String) : List String :=
  jsSplitAux sep s.data ""

/-- Model of JavaScript `parseInt(s, 10)`: skip leading whitespace, optional
sign, then read leading decimal digits; `none` models `NaN` (no digits). -/
def jsParseInt (s : String) : Option Int :=
  let cs := s.data.dropWhile Char.isWhitespace
  let signAndRest : Int × List Char :=
    match cs with
    | '-' :: rest => (-1, rest)
    | '+' :: rest => (1, rest)
    | _ => (1, cs)
  let ds := signAndRest.2.takeWhile Char.isDigit
  if ds.isEmpty then none
  else some (signAndRest.1 * ((ds.foldl (fun acc c => 10 * acc + (c.toNat - 48)) 0 : Nat) : Int))

/-- Model of JavaScript `parseInt(parts[i], 10)` where the index may be out
of range: `parseInt(undefined)` is `NaN`. -/
def nthParseInt (parts : List String) (i : Nat) : Option Int :=
  match parts.get? i with
  | some s => jsParseInt s
  | none => none

/-- Source `mapDestinationToLine` (stops.js lines 140-158): map free-text
destination to a metro line name. `!destination` is true exactly for the
empty string in the string-typed model. -/
def mapDestinationToLine (destination : String) : String :=
  if destination = "" then "Unknown"
  else
    let normalized := trimStr destination
    if normalized = "KR Pura" || containsSubstr normalized "KR Pura" then "Purple Line"
    else if normalized = "Silk Board" || containsSubstr normalized "Silk Board" then "Yellow Line"
    else "Unknown"

/-- Recursion of source `parseCSVLine` (stops.js lines 364-384): walk the
characters with a current-field accumulator and an inside-quotes flag; a
quote toggles the flag, a comma outside quotes ends a field, every finished
field (the final one included) is trimmed. -/
def parseCSVLineGo : List Char → String → Bool → List String
  | [], current, _ => [trimStr current]
  | c :: cs, current, inQuotes =>
    if c = '"' then parseCSVLineGo cs current (!inQuotes)
    else if c = ',' && !inQuotes then trimStr current :: parseCSVLineGo cs "" inQuotes
    else parseCSVLineGo cs (current.push c) inQuotes

/-- Source `parseCSVLine`. -/
def parseCSVLine (line : String) : List String :=
  parseCSVLineGo line.data "" false

/-- A trip record as returned to the frontend. -/
structure Trip where
  route_name : String
  time : String
  towards : String
deriving Repr, DecidableEq

/-- The timetable payload returned to the client (trips list, distinct
route names in insertion order for the JS `Set`, overall direction). -/
structure TimetableResult where
  trips : List Trip
  routes : List String
  towards : String
deriving Repr, DecidableEq

/-- Accumulator threaded through the row/record loops of the source: the
trips pushed so far, the `Set` of route names in insertion order, and the
`towards` variable (`none` models JS `null`). -/
structure AccState where
  trips : List Trip
  routes : List String
  towards : Option String
deriving Repr, DecidableEq

/-- JavaScript truthiness of a nullable string. -/
def truthy : Option String → Bool
  | some s => !(s = "")
  | none => false

/-- JavaScript `a || b` for a nullable string `a` and string `b`. -/
def jsOrString : Option String → String → String
  | some s, b => if s = "" then b else s
  | none, b => b

/-- Loop body of source `loadStaticTimetable` (stops.js lines 314-340): trim
the raw line, skip blank lines, parse the CSV fields, and for rows with at
least 4 columns push a trip (route from column 1, time from column 2,
normalized destination from column 3), record the route name, and set
`towards` from the first pushed row. -/
def staticStep (st : AccState) (rawLine : String) : AccState :=
  let line := trimStr rawLine
  if line = "" then st
  else
    let values := parseCSVLine line
    if 4 ≤ values.length then
      let route_name := values.getD 1 ""
      let time := values.getD 2 ""
      let towards_direction := values.getD 3 ""
      let lineName := mapDestinationToLine towards_direction
      { trips := st.trips ++ [{ route_name := route_name, time := time, towards := lineName }],
        routes := if st.routes.contains route_name then st.routes else st.routes ++ [route_name],
        towards := if truthy st.towards then st.towards else some lineName }
    else st

/-- Parsing part of source `loadStaticTimetable` (stops.js lines 306-349):
split the fetched text on newlines, skip the header row (index 0), fold the
row loop, and normalise the final `towards`. The static trips are returned
in row order; the source applies no sort here. -/
def parseStaticCSV (csvText : String) : TimetableResult :=
  let lines := jsSplit '\n' csvText
  let st := (lines.drop 1).foldl staticStep { trips := [], routes := [], towards := none }
  let finalTowards :=
    match st.towards with
    | some t => if t ≠ "" ∧ t ≠ "Unknown" then t else "Unknown"
    | none => "Unknown"
  { trips := st.trips, routes := st.routes, towards := finalTowards }

/-- Outcome of the static timetable fetch: `failure` covers a rejected
fetch and a non-OK HTTP status (both reach the same `catch` in the source),
`success` carries the CSV text. -/
inductive StaticFetch where
  | failure
  | success (csvText : String)
deriving Repr, DecidableEq

/-- Source `loadStaticTimetable` (stops.js lines 291-359): on any fetch
failure return the empty result with `towards = "Unknown"`; otherwise parse
the CSV text. -/
def loadStaticTimetable : StaticFetch → TimetableResult
  | .failure => { trips := [], routes := [], towards := "Unknown" }
  | .success csvText => parseStaticCSV csvText

/-- Gregorian leap-year test. -/
def isLeapYear (y : Int) : Bool :=
  (y % 4 = 0 && !(y % 100 = 0)) || y % 400 = 0

/-- Length of a Gregorian month (`m` is 1-based). -/
def daysInMonth (y m : Int) : Int :=
  if m = 2 then (if isLeapYear y then 29 else 28)
  else if m = 4 ∨ m = 6 ∨ m = 9 ∨ m = 11 then 30
  else 31

/-- Days from the Unix epoch to the given proleptic-Gregorian civil date
(the standard era/year-of-era computation; all intermediate quotients are
nonnegative for the validated input ranges used below). -/
def daysFromCivil (y m d : Int) : Int :=
  let y' := if m ≤ 2 then y - 1 else y
  let era := (if 0 ≤ y' then y' else y' - 399) / 400
  let yoe := y' - era * 400
  let mp := (m + 9) % 12
  let doy := (153 * mp + 2) / 5 + d - 1
  let doe := yoe * 365 + yoe / 4 - yoe / 100 + doy
  era * 146097 + doe - 719468

/-- Source `parseBMTCDate` (stops.js lines 166-184): split `"DD-MM-YYYY
HH:MM:SS"`, `parseInt` each component, build an ISO string with a fixed
`+05:30` offset and hand it to `new Date`. The result is the epoch instant
in milliseconds; `none` models an Invalid Date (`NaN`), which arises when a
component fails to parse or the rebuilt ISO string is out of range (the
ECMAScript ISO parser range-checks month, day-of-month, hour 0-23 or
`24:00:00`, minute and second; components outside two-digit shape also
yield an unparseable string). -/
def parseBMTCDate (dateString : String) : Option Int :=
  let parts := jsSplit ' ' dateString
  let dateParts := jsSplit '-' (parts.getD 0 "")
  let timeParts := if parts.getD 1 "" ≠ "" then jsSplit ':' (parts.getD 1 "") else ["0", "0", "0"]
  match nthParseInt dateParts 0, nthParseInt dateParts 1, nthParseInt dateParts 2,
      nthParseInt timeParts 0, nthParseInt timeParts 1, nthParseInt timeParts 2 with
  | some day, some month, some year, some hours, some minutes, some seconds =>
    if 1000 ≤ year ∧ year ≤ 9999 ∧ 1 ≤ month ∧ month ≤ 12 ∧
        1 ≤ day ∧ day ≤ daysInMonth year month ∧
        ((0 ≤ hours ∧ hours ≤ 23) ∨ (hours = 24 ∧ minutes = 0 ∧ seconds = 0)) ∧
        0 ≤ minutes ∧ minutes ≤ 59 ∧ 0 ≤ seconds ∧ seconds ≤ 59 then
      some ((daysFromCivil year month day * 86400 + hours * 3600 + minutes * 60 + seconds
        - 19800) * 1000)
    else none
  | _, _, _, _, _, _ => none

/-- One arrival record of the BMTC live-feed payload (`result.data`). -/
structure BMTCRecord where
  routeno : String
  tostationname : String
  arrivaltime : String
deriving Repr, DecidableEq

/-- One attempt of the regex `\s(\d\x7b2\x7d):(\d\x7b2\x7d):\d\x7b2\x7d` at a fixed
position: `c` is the candidate whitespace character and `rest` the
following characters; returns the two captured groups on a hit. -/
def timeWindowAt (c : Char) (rest : List Char) : Option (String × String) :=
  match rest with
  | d1 :: d2 :: c1 :: d3 :: d4 :: c2 :: d5 :: d6 :: _ =>
    if c.isWhitespace && d1.isDigit && d2.isDigit && c1 = ':' && d3.isDigit && d4.isDigit
        && c2 = ':' && d5.isDigit && d6.isDigit then
      some (⟨[d1, d2]⟩, ⟨[d3, d4]⟩)
    else none
  | _ => none

/-- Model of `trip.arrivaltime.match(/\s(\d\x7b2\x7d):(\d\x7b2\x7d):\d\x7b2\x7d/)`
(stops.js line 227): scan left to right for a whitespace character followed
by `HH:MM:SS` with two digits per component, returning the two captured
groups of the first match. -/
def findTimeMatch : List Char → Option (String × String)
  | [] => none
  | c :: rest =>
    match timeWindowAt c rest with
    | some p => some p
    | none => findTimeMatch rest

/-- Decimal digit character of `n % 10` for a nonnegative integer. -/
def digitChar (n : Int) : Char :=
  if n = 0 then '0' else if n = 1 then '1' else if n = 2 then '2' else if n = 3 then '3'
  else if n = 4 then '4' else if n = 5 then '5' else if n = 6 then '6' else if n = 7 then '7'
  else if n = 8 then '8' else '9'

/-- Model of `String(n).padStart(2, '0')` on the domain `0 ≤ n ≤ 99` where
the source applies it (hours and minutes). -/
def pad2 (n : Int) : String :=
  if n < 10 then ⟨['0', digitChar n]⟩ else ⟨[digitChar (n / 10), digitChar (n % 10)]⟩

/-- Display-time extraction of `convertBMTCToTimetableFormat` (stops.js
lines 227-249): take `HH:MM` directly from the arrival string when the
regex matches; otherwise rebuild it from the parsed instant by adding the
IST offset to the UTC clock fields with minute and 24-hour overflow
handling. When the instant is an Invalid Date the JS fields are `NaN` and
the string arithmetic produces the literal `"NaN:NaN"`. -/
def timeStringOf (r : BMTCRecord) : String :=
  match findTimeMatch r.arrivaltime.data with
  | some p => p.1 ++ ":" ++ p.2
  | none =>
    match parseBMTCDate r.arrivaltime with
    | none => "NaN:NaN"
    | some t =>
      let utcHours := (t / 3600000) % 24
      let utcMinutes := (t / 60000) % 60
      let istHours := utcHours + 5
      let istMinutes := utcMinutes + 30
      let istHours' := if 60 ≤ istMinutes then istHours + 1 else istHours
      let istMinutes' := if 60 ≤ istMinutes then istMinutes - 60 else istMinutes
      let istHours'' := if 24 ≤ istHours' then istHours' - 24 else istHours'
      pad2 istHours'' ++ ":" ++ pad2 istMinutes'

/-- Loop body of source `convertBMTCToTimetableFormat` (stops.js lines
207-266): skip records whose route is filtered out by `allowedRoutes`
(when that argument is non-null), skip records already arrived or more
than 90 minutes out (an Invalid Date gives `NaN` comparisons, both false,
so such records are not skipped), then push the trip, record the route and
set `towards` from the first pushed trip if still null. -/
def convertStep (allowedRoutes : Option (List String)) (staticTowards : Option String)
    (now : Int) (st : AccState) (trip : BMTCRecord) : AccState :=
  let routeNo := trip.routeno
  let destination := trip.tostationname
  if (match allowedRoutes with
      | some ar => !ar.contains routeNo
      | none => false) then st
  else
    let skip :=
      match parseBMTCDate trip.arrivaltime with
      | some t => decide (t - now < 0) || decide (t - now > 90 * 60 * 1000)
      | none => false
    if skip then st
    else
      let timeString := timeStringOf trip
      let lineName := jsOrString staticTowards (mapDestinationToLine destination)
      { trips := st.trips ++ [{ route_name := routeNo, time := timeString, towards := lineName }],
        routes := if st.routes.contains routeNo then st.routes else st.routes ++ [routeNo],
        towards := if truthy st.towards then st.towards else some lineName }

/-- Sort key of the comparator at stops.js lines 269-275:
`hours * 60 + minutes` from `time.split(':').map(Number)`; `none` models a
`NaN` key (a component that is not numeric, or a missing component). The
strings this code produces are `"HH:MM"` or `"NaN:NaN"`, so `Number` is
modelled on trimmed optionally-signed decimal integers with `"" ↦ 0`. -/
def tripTimeKey (t : Trip) : Option Int :=
  let numberOf : Option String → Option Int := fun s? =>
    match s? with
    | none => none
    | some s =>
      let tr := trimStr s
      if tr = "" then some 0
      else
        match tr.data with
        | '-' :: rest => if !rest.isEmpty && rest.all Char.isDigit
            then some (-(((rest.foldl (fun acc c => 10 * acc + (c.toNat - 48)) 0 : Nat)) : Int))
            else none
        | l => if l.all Char.isDigit
            then some (((l.foldl (fun acc c => 10 * acc + (c.toNat - 48)) 0 : Nat) : Int))
            else none
  let parts := jsSplit ':' t.time
  match numberOf (parts.get? 0), numberOf (parts.get? 1) with
  | some h, some m => some (h * 60 + m)
  | _, _ => none

/-- The JS comparator `aTime - bTime` (stops.js lines 269-275); a `NaN`
result is treated as 0 by the sort (`a` and `b` compare as equal). -/
def jsCompare (a b : Trip) : Int :=
  match tripTimeKey a, tripTimeKey b with
  | some x, some y => x - y
  | _, _ => 0

/-- Stable insertion of a trip into an already-sorted list: `t` goes
before the first element that does not compare strictly below it, which is
the placement a stable comparator sort gives the earlier-input element. -/
def insertTrip (t : Trip) : List Trip → List Trip
  | [] => [t]
  | x :: xs => if jsCompare x t < 0 then x :: insertTrip t xs else t :: x :: xs

/-- Model of `trips.sort(comparator)` (stops.js lines 269-275):
`Array.prototype.sort` is a stable sort, modelled as stable insertion
sort. -/
def sortTrips : List Trip → List Trip
  | [] => []
  | x :: xs => insertTrip x (sortTrips xs)

/-- Source `convertBMTCToTimetableFormat` (stops.js lines 194-286): fold
the record loop, sort the pushed trips with the time comparator, and
resolve the final `towards` (`staticTowards` when truthy, else the first
trip's line when it is set and not `"Unknown"`). -/
def convertBMTCToTimetableFormat (data : List BMTCRecord) (allowedRoutes : Option (List String))
    (staticTowards : Option String) (now : Int) : TimetableResult :=
  let init : AccState :=
    { trips := [], routes := [], towards := if truthy staticTowards then staticTowards else none }
  let st := data.foldl (convertStep allowedRoutes staticTowards now) init
  let finalTowards := jsOrString staticTowards
    (match st.towards with
     | some t => if t ≠ "" ∧ t ≠ "Unknown" then t else "Unknown"
     | none => "Unknown")
  { trips := sortTrips st.trips, routes := st.routes, towards := finalTowards }

/-- Outcome of the live-feed attempt as observed by the `try` block of
`onRequest` (stops.js lines 45-89): `fetchError` is any exception or
rejected fetch (caught at line 87), `notOk` a non-OK HTTP response, and
`payload` a parsed JSON body carrying the `Issuccess` flag and the `data`
array (a missing or null array is modelled as the empty list, which the
`length > 0` check treats identically). -/
inductive LiveOutcome where
  | fetchError
  | notOk
  | payload (issuccess : Bool) (data : List BMTCRecord)
deriving Repr, DecidableEq

/-- The `liveData` variable of `onRequest` (stops.js lines 44-89): null
unless the response was OK, `Issuccess` set and `data` non-empty, in which
case it is the converted live result (filtered by the static route set and
directed by the static `towards`). -/
def liveDataOf (lo : LiveOutcome) (allowedRoutes : List String) (staticTowards : String)
    (now : Int) : Option TimetableResult :=
  match lo with
  | .fetchError => none
  | .notOk => none
  | .payload issuccess data =>
    if issuccess && !data.isEmpty then
      some (convertBMTCToTimetableFormat data (some allowedRoutes) (some staticTowards) now)
    else none

/-- HTTP response of the stop endpoint for the with-stop-id path: status
code and the JSON timetable body. -/
structure StopResponse where
  status : Nat
  body : TimetableResult
deriving Repr, DecidableEq

/-- Source `onRequest` (stops.js lines 39-116) for a request that carries a
stop id: load the static timetable (never failing), attempt the live feed
with the static route set as allowlist, and return the live result when it
exists and has at least one trip, else the static result; both paths are
status 200. -/
def handleStopRequest (sf : StaticFetch) (lo : LiveOutcome) (now : Int) : StopResponse :=
  let staticData := loadStaticTimetable sf
  let liveData := liveDataOf lo staticData.routes staticData.towards now
  match liveData with
  | some ld => if !ld.trips.isEmpty then { status := 200, body := ld }
      else { status := 200, body := staticData }
  | none => { status := 200, body := staticData }

/-! ### Specification-side helper definitions used by the theorems -/

/-- The 90-minute relevance window of stops.js lines 216-223, phrased per
record: a record is inside the window unless its parsed arrival instant is
strictly before `now` or strictly more than `90 * 60 * 1000` ms after it
(an unparseable instant gives `NaN` comparisons, hence inside). -/
def withinWindow (now : Int) (r : BMTCRecord) : Bool :=
  match parseBMTCDate r.arrivaltime with
  | some t => !(decide (t - now < 0) || decide (t - now > 90 * 60 * 1000))
  | none => true

/-- Whether the record loop of `convertBMTCToTimetableFormat` pushes a trip
for a record: the route passes the allowlist (when one is given) and the
record is inside the arrival window. -/
def keepRecord (allowedRoutes : Option (List String)) (now : Int) (r : BMTCRecord) : Bool :=
  (match allowedRoutes with
   | some ar => ar.contains r.routeno
   | none => true) && withinWindow now r

/-- The trip pushed for a kept record. -/
def recordTrip (staticTowards : Option String) (r : BMTCRecord) : Trip :=
  { route_name := r.routeno, time := timeStringOf r,
    towards := jsOrString staticTowards (mapDestinationToLine r.tostationname) }

/-- Non-decreasing order on trips by the comparator key
`hours * 60 + minutes` (a `NaN` key is read as 0 here; the sortedness
theorem assumes all keys are numeric). -/
def timeKeyLe (a b : Trip) : Prop :=
  (tripTimeKey a).getD 0 ≤ (tripTimeKey b).getD 0

instance : DecidableRel timeKeyLe :=
  fun _ _ => inferInstanceAs (Decidable (_ ≤ _))

/-- Shape check for a display time: exactly two digits, a colon, two
digits. -/
def isHHMM (s : String) : Bool :=
  match s.data with
  | [d1, d2, c, d3, d4] => d1.isDigit && d2.isDigit && c = ':' && d3.isDigit && d4.isDigit
  | _ => false

/-- The `routes`-tracks-`trips` invariant maintained by both source
loops. -/
def routesInv (st : AccState) : Prop :=
  ∀ x, x ∈ st.routes ↔ ∃ t ∈ st.trips, t.route_name = x

/-! ### Bridging lemmas -/

theorem ite_bool_flip {α : Sort _} (c : Bool) (x y : α) :
    (if c = true then x else y) = if (!c) = true then y else x := by
  cases c <;> simp

theorem convertStep_eq (ar : Option (List String)) (stt : Option String) (now : Int)
    (st : AccState) (r : BMTCRecord) :
    convertStep ar stt now st r =
      if keepRecord ar now r then
        { trips := st.trips ++ [recordTrip stt r],
          routes := if st.routes.contains r.routeno then st.routes
            else st.routes ++ [r.routeno],
          towards := if truthy st.towards then st.towards
            else some (recordTrip stt r).towards }
      else st := by
  simp only [convertStep, keepRecord, withinWindow, recordTrip]
  rcases ar with _ | ar
  · simp only [Bool.false_eq_true, if_false, Bool.true_and]
    rcases hp : parseBMTCDate r.arrivaltime with _ | t
    · simp
    · simp only [hp]
      exact ite_bool_flip _ _ _
  · by_cases hc : ar.contains r.routeno = true
    · simp only [hc, Bool.not_true, Bool.false_eq_true, if_false, Bool.true_and]
      rcases hp : parseBMTCDate r.arrivaltime with _ | t
      · simp
      · simp only [hp]
        exact ite_bool_flip _ _ _
    · have hc' : r.routeno ∉ ar := by simpa using hc
      simp [hc']

theorem foldl_convertStep_trips (ar : Option (List String)) (stt : Option String) (now : Int) :
    ∀ (data : List BMTCRecord) (st : AccState),
      (data.foldl (convertStep ar stt now) st).trips =
        st.trips ++ (data.filter (keepRecord ar now)).map (recordTrip stt)
  | [], st => by simp
  | r :: rest, st => by
    rw [List.foldl_cons, foldl_convertStep_trips ar stt now rest, convertStep_eq]
    by_cases h : keepRecord ar now r = true <;> simp [h]

theorem pushTrip_routesInv (st : AccState) (name time towards : String) (h : routesInv st) :
    routesInv
      { trips := st.trips ++ [{ route_name := name, time := time, towards := towards }],
        routes := if st.routes.contains name then st.routes else st.routes ++ [name],
        towards := if truthy st.towards then st.towards else some towards } := by
  intro x
  dsimp only
  have hmem : (∃ t ∈ st.trips ++ [({ route_name := name, time := time, towards := towards } : Trip)],
      t.route_name = x) ↔ (∃ t ∈ st.trips, t.route_name = x) ∨ x = name := by
    constructor
    · rintro ⟨t, ht, rfl⟩
      rcases List.mem_append.1 ht with ht | ht
      · exact Or.inl ⟨t, ht, rfl⟩
      · simp only [List.mem_singleton] at ht
        subst ht
        exact Or.inr rfl
    · rintro (⟨t, ht, rfl⟩ | rfl)
      · exact ⟨t, List.mem_append_left _ ht, rfl⟩
      · exact ⟨_, List.mem_append_right _ (List.mem_singleton_self _), rfl⟩
  rw [hmem]
  by_cases hc : st.routes.contains name = true
  · simp only [hc, if_true]
    have hn : name ∈ st.routes := List.elem_iff.1 hc
    constructor
    · intro hx
      exact Or.inl ((h x).1 hx)
    · rintro (hx | rfl)
      · exact (h x).2 hx
      · exact hn
  · simp only [hc, Bool.false_eq_true, if_false, List.mem_append, List.mem_singleton]
    rw [h x]

theorem convertStep_routesInv (ar : Option (List String)) (stt : Option String) (now : Int)
    (st : AccState) (r : BMTCRecord) (h : routesInv st) :
    routesInv (convertStep ar stt now st r) := by
  rw [convertStep_eq]
  by_cases hk : keepRecord ar now r = true
  · simp only [hk, if_true]
    exact pushTrip_routesInv st r.routeno (timeStringOf r) _ h
  · simp only [hk, if_false]
    exact h

theorem foldl_convertStep_routesInv (ar : Option (List String)) (stt : Option String)
    (now : Int) :
    ∀ (data : List BMTCRecord) (st : AccState), routesInv st →
      routesInv (data.foldl (convertStep ar stt now) st)
  | [], _, h => h
  | r :: rest, st, h => by
    rw [List.foldl_cons]
    exact foldl_convertStep_routesInv ar stt now rest _ (convertStep_routesInv ar stt now st r h)

theorem mem_insertTrip (t x : Trip) : ∀ (l : List Trip), x ∈ insertTrip t l ↔ x = t ∨ x ∈ l
  | [] => by simp [insertTrip]
  | y :: ys => by
    rw [insertTrip]
    split
    · simp only [List.mem_cons, mem_insertTrip t x ys]
      tauto
    · simp only [List.mem_cons]

theorem mem_sortTrips (x : Trip) : ∀ (l : List Trip), x ∈ sortTrips l ↔ x ∈ l
  | [] => by simp [sortTrips]
  | y :: ys => by
    rw [sortTrips, mem_insertTrip, mem_sortTrips x ys, List.mem_cons]

theorem jsCompare_of_keys (a b : Trip) (ka kb : Int) (hka : tripTimeKey a = some ka)
    (hkb : tripTimeKey b = some kb) : jsCompare a b = ka - kb := by
  unfold jsCompare
  rw [hka, hkb]

theorem timeKeyLe_of_compare_lt (a b : Trip) (ha : (tripTimeKey a).isSome)
    (hb : (tripTimeKey b).isSome) (h : jsCompare a b < 0) : timeKeyLe a b := by
  rcases Option.isSome_iff_exists.1 ha with ⟨ka, hka⟩
  rcases Option.isSome_iff_exists.1 hb with ⟨kb, hkb⟩
  rw [jsCompare_of_keys a b ka kb hka hkb] at h
  unfold timeKeyLe
  rw [hka, hkb]
  simp only [Option.getD_some]
  omega

theorem timeKeyLe_of_compare_ge (a b : Trip) (ha : (tripTimeKey a).isSome)
    (hb : (tripTimeKey b).isSome) (h : ¬ jsCompare a b < 0) : timeKeyLe b a := by
  rcases Option.isSome_iff_exists.1 ha with ⟨ka, hka⟩
  rcases Option.isSome_iff_exists.1 hb with ⟨kb, hkb⟩
  rw [jsCompare_of_keys a b ka kb hka hkb] at h
  unfold timeKeyLe
  rw [hka, hkb]
  simp only [Option.getD_some]
  omega

theorem timeKeyLe_trans {a b c : Trip} (h1 : timeKeyLe a b) (h2 : timeKeyLe b c) :
    timeKeyLe a c := by
  unfold timeKeyLe at *
  omega

theorem pairwise_insertTrip (t : Trip) (ht : (tripTimeKey t).isSome) :
    ∀ (l : List Trip), (∀ a ∈ l, (tripTimeKey a).isSome) → l.Pairwise timeKeyLe →
      (insertTrip t l).Pairwise timeKeyLe
  | [], _, _ => by simp [insertTrip]
  | x :: xs, hl, h => by
    rw [insertTrip]
    rcases List.pairwise_cons.1 h with ⟨hx, hxs⟩
    split
    · rename_i hcmp
      refine List.pairwise_cons.2 ⟨?_, ?_⟩
      · intro z hz
        rcases (mem_insertTrip t z xs).1 hz with rfl | hz
        · exact timeKeyLe_of_compare_lt x z (hl x (List.mem_cons_self x xs)) ht hcmp
        · exact hx z hz
      · exact pairwise_insertTrip t ht xs (fun a ha => hl a (List.mem_cons_of_mem x ha)) hxs
    · rename_i hcmp
      refine List.pairwise_cons.2 ⟨?_, h⟩
      intro z hz
      have hxt : timeKeyLe t x :=
        timeKeyLe_of_compare_ge x t (hl x (List.mem_cons_self x xs)) ht hcmp
      rcases List.mem_cons.1 hz with rfl | hz
      · exact hxt
      · exact timeKeyLe_trans hxt (hx z hz)

theorem pairwise_sortTrips : ∀ (l : List Trip), (∀ a ∈ l, (tripTimeKey a).isSome) →
    (sortTrips l).Pairwise timeKeyLe
  | [], _ => by simp [sortTrips]
  | x :: xs, hl => by
    rw [sortTrips]
    refine pairwise_insertTrip x (hl x (List.mem_cons_self x xs)) (sortTrips xs) ?_ ?_
    · intro a ha
      exact hl a (List.mem_cons_of_mem x ((mem_sortTrips a xs).1 ha))
    · exact pairwise_sortTrips xs (fun a ha => hl a (List.mem_cons_of_mem x ha))

theorem dropWhile_dropWhile {α : Type _} (p : α → Bool) :
    ∀ (l : List α), (l.dropWhile p).dropWhile p = l.dropWhile p
  | [] => rfl
  | x :: xs => by
    rw [List.dropWhile_cons]
    split
    · exact dropWhile_dropWhile p xs
    · rw [List.dropWhile_cons]
      simp_all

theorem dropWhile_head_false {α : Type _} (p : α → Bool) :
    ∀ (l : List α) (a : α) (rest : List α), l.dropWhile p = a :: rest → p a = false
  | [], a, rest => by simp
  | x :: xs, a, rest => by
    rw [List.dropWhile_cons]
    split
    · exact dropWhile_head_false p xs a rest
    · intro h
      cases h
      simp_all

theorem listTrim_idem (l : List Char) :
    ((((((l.dropWhile Char.isWhitespace).reverse.dropWhile Char.isWhitespace).reverse).dropWhile
        Char.isWhitespace).reverse.dropWhile Char.isWhitespace)).reverse =
      ((l.dropWhile Char.isWhitespace).reverse.dropWhile Char.isWhitespace).reverse := by
  rcases hA : l.dropWhile Char.isWhitespace with _ | ⟨a, A'⟩
  · simp
  · have hpa : Char.isWhitespace a = false := dropWhile_head_false _ l a A' hA
    have hx : (a :: A').reverse.dropWhile Char.isWhitespace =
        A'.reverse.dropWhile Char.isWhitespace ++ [a] := by
      rw [List.reverse_cons, List.dropWhile_append]
      split
      · rename_i he
        rw [List.isEmpty_iff] at he
        rw [he, List.nil_append]
        simp [List.dropWhile_cons, hpa]
      · rfl
    have hX'idem : (A'.reverse.dropWhile Char.isWhitespace).dropWhile Char.isWhitespace =
        A'.reverse.dropWhile Char.isWhitespace := dropWhile_dropWhile _ _
    have hfinal : (A'.reverse.dropWhile Char.isWhitespace ++ [a]).dropWhile Char.isWhitespace =
        A'.reverse.dropWhile Char.isWhitespace ++ [a] := by
      rw [List.dropWhile_append, hX'idem]
      rcases A'.reverse.dropWhile Char.isWhitespace with _ | ⟨x0, xs0⟩
      · simp [List.dropWhile_cons, hpa]
      · simp
    have hmain : ((a :: A').reverse.dropWhile Char.isWhitespace).reverse =
        a :: (A'.reverse.dropWhile Char.isWhitespace).reverse := by
      rw [hx]
      simp
    rw [hmain, List.dropWhile_cons]
    simp only [hpa, Bool.false_eq_true, if_false]
    rw [List.reverse_cons, List.reverse_reverse, hfinal]
    simp

theorem trimStr_trimStr (s : String) : trimStr (trimStr s) = trimStr s := by
  rcases s with ⟨l⟩
  simp only [trimStr]
  exact congrArg String.mk (listTrim_idem l)

theorem staticStep_routesInv (st : AccState) (rawLine : String) (h : routesInv st) :
    routesInv (staticStep st rawLine) := by
  simp only [staticStep]
  split
  · exact h
  · split
    · exact pushTrip_routesInv st _ _ _ h
    · exact h

theorem foldl_staticStep_routesInv :
    ∀ (rows : List String) (st : AccState), routesInv st → routesInv (rows.foldl staticStep st)
  | [], _, h => h
  | row :: rest, st, h => by
    rw [List.foldl_cons]
    exact foldl_staticStep_routesInv rest _ (staticStep_routesInv st row h)

theorem parseStaticCSV_trips (csvText : String) :
    (parseStaticCSV csvText).trips =
      (((jsSplit '\n' csvText).drop 1).foldl staticStep ⟨[], [], none⟩).trips := rfl

theorem parseStaticCSV_routes (csvText : String) :
    (parseStaticCSV csvText).routes =
      (((jsSplit '\n' csvText).drop 1).foldl staticStep ⟨[], [], none⟩).routes := rfl

theorem convert_trips (data : List BMTCRecord) (ar : Option (List String)) (stt : Option String)
    (now : Int) :
    (convertBMTCToTimetableFormat data ar stt now).trips =
      sortTrips ((data.foldl (convertStep ar stt now)
        ⟨[], [], if truthy stt then stt else none⟩).trips) := rfl

theorem convert_routes (data : List BMTCRecord) (ar : Option (List String)) (stt : Option String)
    (now : Int) :
    (convertBMTCToTimetableFormat data ar stt now).routes =
      (data.foldl (convertStep ar stt now) ⟨[], [], if truthy stt then stt else none⟩).routes := rfl

theorem convert_trips_eq (data : List BMTCRecord) (ar : Option (List String)) (stt : Option String)
    (now : Int) :
    (convertBMTCToTimetableFormat data ar stt now).trips =
      sortTrips ((data.filter (keepRecord ar now)).map (recordTrip stt)) := by
  rw [convert_trips, foldl_convertStep_trips]
  rfl

theorem parseCSVLineGo_mem_trim :
    ∀ (l : List Char) (cur : String) (q : Bool) (f : String),
      f ∈ parseCSVLineGo l cur q → ∃ c, f = trimStr c
  | [], cur, q, f => by
    rw [parseCSVLineGo]
    intro h
    rw [List.mem_singleton] at h
    exact ⟨cur, h⟩
  | c :: cs, cur, q, f => by
    rw [parseCSVLineGo]
    split
    · exact parseCSVLineGo_mem_trim cs cur (!q) f
    · split
      · intro h
        rcases List.mem_cons.1 h with rfl | h
        · exact ⟨cur, rfl⟩
        · exact parseCSVLineGo_mem_trim cs "" q f h
      · exact parseCSVLineGo_mem_trim cs (cur.push c) q f

theorem parseCSVLine_mem_trim (line f : String) (h : f ∈ parseCSVLine line) : f = trimStr f := by
  rcases parseCSVLineGo_mem_trim line.data "" false f h with ⟨c, rfl⟩
  rw [trimStr_trimStr]

theorem timeWindowAt_shape (c : Char) (rest : List Char) (a b : String)
    (h : timeWindowAt c rest = some (a, b)) :
    ∃ d1 d2 d3 d4, a = (⟨[d1, d2]⟩ : String) ∧ b = (⟨[d3, d4]⟩ : String) ∧
      d1.isDigit = true ∧ d2.isDigit = true ∧ d3.isDigit = true ∧ d4.isDigit = true := by
  unfold timeWindowAt at h
  split at h
  · split at h
    · rename_i d1 d2 c1 d3 d4 c2 d5 d6 tail hguard
      injection h with h'
      simp only [Bool.and_eq_true, decide_eq_true_eq] at hguard
      obtain ⟨⟨⟨⟨⟨⟨⟨⟨hws, h1⟩, h2⟩, hc1⟩, h3⟩, h4⟩, hc2⟩, h5⟩, h6⟩ := hguard
      exact ⟨d1, d2, d3, d4, (congrArg Prod.fst h').symm, (congrArg Prod.snd h').symm,
        h1, h2, h3, h4⟩
    · cases h
  · cases h

theorem findTimeMatch_shape (l : List Char) :
    ∀ (a b : String), findTimeMatch l = some (a, b) →
      ∃ d1 d2 d3 d4, a = (⟨[d1, d2]⟩ : String) ∧ b = (⟨[d3, d4]⟩ : String) ∧
        d1.isDigit = true ∧ d2.isDigit = true ∧ d3.isDigit = true ∧ d4.isDigit = true := by
  induction l with
  | nil =>
    intro a b h
    simp [findTimeMatch] at h
  | cons c rest ih =>
    intro a b h
    rw [findTimeMatch] at h
    rcases hw : timeWindowAt c rest with _ | p
    · rw [hw] at h
      exact ih a b h
    · rw [hw] at h
      injection h with h'
      rcases p with ⟨pa, pb⟩
      injection h' with h1 h2
      subst h1
      subst h2
      exact timeWindowAt_shape c rest _ _ hw

theorem digitChar_isDigit (n : Int) : (digitChar n).isDigit = true := by
  unfold digitChar
  split_ifs <;> decide

theorem pad2_shape (n : Int) : ∃ a b, pad2 n = (⟨[a, b]⟩ : String) ∧
    a.isDigit = true ∧ b.isDigit = true := by
  unfold pad2
  split
  · exact ⟨'0', digitChar n, rfl, by decide, digitChar_isDigit n⟩
  · exact ⟨digitChar (n / 10), digitChar (n % 10), rfl, digitChar_isDigit _, digitChar_isDigit _⟩

theorem isHHMM_of_digits (d1 d2 d3 d4 : Char) (h1 : d1.isDigit = true) (h2 : d2.isDigit = true)
    (h3 : d3.isDigit = true) (h4 : d4.isDigit = true) :
    isHHMM ((⟨[d1, d2]⟩ : String) ++ ":" ++ (⟨[d3, d4]⟩ : String)) = true := by
  have hd : ((⟨[d1, d2]⟩ : String) ++ ":" ++ (⟨[d3, d4]⟩ : String)).data =
      [d1, d2, ':', d3, d4] := by
    rw [String.data_append, String.data_append]
    rfl
  unfold isHHMM
  rw [hd]
  simp [h1, h2, h3, h4]

theorem isHHMM_pad2 (a b : Int) : isHHMM (pad2 a ++ ":" ++ pad2 b) = true := by
  rcases pad2_shape a with ⟨a1, a2, ha, ha1, ha2⟩
  rcases pad2_shape b with ⟨b1, b2, hb, hb1, hb2⟩
  rw [ha, hb]
  exact isHHMM_of_digits a1 a2 b1 b2 ha1 ha2 hb1 hb2

theorem timeStringOf_shape (r : BMTCRecord) :
    isHHMM (timeStringOf r) = true ∨ timeStringOf r = "NaN:NaN" := by
  unfold timeStringOf
  rcases hm : findTimeMatch r.arrivaltime.data with _ | p
  · rcases hp : parseBMTCDate r.arrivaltime with _ | t
    · right
      rfl
    · left
      exact isHHMM_pad2 _ _
  · left
    rcases findTimeMatch_shape _ p.1 p.2 (by rw [hm]) with ⟨d1, d2, d3, d4, ha, hb, h1, h2, h3, h4⟩
    show isHHMM (p.1 ++ ":" ++ p.2) = true
    rw [ha, hb]
    exact isHHMM_of_digits d1 d2 d3 d4 h1 h2 h3 h4

/-! ### Claim theorems -/

/-- C1: for every request with a stop id, the orchestrator returns the live
result whenever it exists and has at least one trip, regardless of the
static result's content; otherwise it returns the static result (which may
itself be empty), and every response on this path — the
empty-static-with-empty-live case included — has status 200, not an
error. -/
theorem c1_orchestrator_decision (sf : StaticFetch) (lo : LiveOutcome) (now : Int) :
    (handleStopRequest sf lo now).status = 200 ∧
    (∀ l, liveDataOf lo (loadStaticTimetable sf).routes (loadStaticTimetable sf).towards now =
        some l → l.trips ≠ [] →
      (handleStopRequest sf lo now).body = l) ∧
    ((∀ l, liveDataOf lo (loadStaticTimetable sf).routes (loadStaticTimetable sf).towards now =
        some l → l.trips = []) →
      (handleStopRequest sf lo now).body = loadStaticTimetable sf) := by
  refine ⟨?_, ?_, ?_⟩
  · unfold handleStopRequest
    rcases hld : liveDataOf lo (loadStaticTimetable sf).routes (loadStaticTimetable sf).towards now
      with _ | l
    · simp only [hld]
    · simp only [hld]
      split <;> rfl
  · intro l hl hne
    simp only [handleStopRequest]
    rw [hl]
    have hf : l.trips.isEmpty = false := by
      rcases hlt : l.trips with _ | ⟨t, ts⟩
      · exact absurd hlt hne
      · rfl
    simp [hf]
  · intro hcontra
    unfold handleStopRequest
    rcases hld : liveDataOf lo (loadStaticTimetable sf).routes (loadStaticTimetable sf).towards now
      with _ | l
    · simp only [hld]
    · have hnil := hcontra l hld
      simp only [hld]
      simp [hnil]

/-- C1 witness: a concrete stop with one static route and a live record on
that route inside the window is served the live result. -/
theorem c1_orchestrator_decision_witness :
    (handleStopRequest (.success "stop,route,time,towards\nA,R1,10:00,KR Pura")
        (.payload true [⟨"R1", "KR Pura", "31-10-2025 14:30:00"⟩]) 1761899400000).body =
      { trips := [{ route_name := "R1", time := "14:30", towards := "Purple Line" }],
        routes := ["R1"], towards := "Purple Line" } :=
  (c1_orchestrator_decision (.success "stop,route,time,towards\nA,R1,10:00,KR Pura")
    (.payload true [⟨"R1", "KR Pura", "31-10-2025 14:30:00"⟩]) 1761899400000).2.1
    { trips := [{ route_name := "R1", time := "14:30", towards := "Purple Line" }],
      routes := ["R1"], towards := "Purple Line" }
    (by decide) (by decide)

/-- C2: a static fetch or parse failure yields the empty TimetableResult
with `towards = "Unknown"` instead of failing the request; a live-feed
exception is caught and falls back to the static result; and every
response on the with-stop-id path is status 200, so neither upstream
failure surfaces as an error. -/
theorem c2_failures_recovered :
    loadStaticTimetable .failure = { trips := [], routes := [], towards := "Unknown" } ∧
    (∀ (sf : StaticFetch) (lo : LiveOutcome) (now : Int),
      (handleStopRequest sf lo now).status = 200) ∧
    (∀ (sf : StaticFetch) (now : Int),
      handleStopRequest sf .fetchError now = { status := 200, body := loadStaticTimetable sf }) := by
  refine ⟨rfl, ?_, ?_⟩
  · intro sf lo now
    unfold handleStopRequest
    rcases hld : liveDataOf lo (loadStaticTimetable sf).routes (loadStaticTimetable sf).towards now
      with _ | l
    · simp only [hld]
    · simp only [hld]
      split
      · rfl
      · rfl
  · intro sf now
    rfl

/-- C4: the normalizer trims the destination and returns "Purple Line"
when the trimmed text contains "KR Pura" (equality being a special case of
containment), else "Yellow Line" when it contains "Silk Board", else
"Unknown" — empty input included; "KR Pura" takes priority when both
substrings occur. -/
theorem c4_normalizer (s : String) :
    (containsSubstr (trimStr s) "KR Pura" = true → mapDestinationToLine s = "Purple Line") ∧
    (containsSubstr (trimStr s) "KR Pura" = false → containsSubstr (trimStr s) "Silk Board" = true →
      mapDestinationToLine s = "Yellow Line") ∧
    (containsSubstr (trimStr s) "KR Pura" = false →
      containsSubstr (trimStr s) "Silk Board" = false →
      mapDestinationToLine s = "Unknown") := by
  by_cases hs : s = ""
  · subst hs
    refine ⟨?_, ?_, ?_⟩
    · intro h
      exact absurd h (by decide)
    · intro _ h2
      exact absurd h2 (by decide)
    · intro _ _
      rfl
  · refine ⟨?_, ?_, ?_⟩
    · intro h
      simp only [mapDestinationToLine]
      rw [if_neg hs, if_pos (by rw [h, Bool.or_true])]
    · intro h1 h2
      simp only [mapDestinationToLine]
      have hA : ¬ ((decide (trimStr s = "KR Pura") || containsSubstr (trimStr s) "KR Pura")
          = true) := by
        intro hcond
        rw [Bool.or_eq_true] at hcond
        rcases hcond with he | hc
        · rw [decide_eq_true_eq] at he
          rw [he] at h1
          exact absurd h1 (by decide)
        · rw [h1] at hc
          cases hc
      rw [if_neg hs, if_neg hA, if_pos (by rw [h2, Bool.or_true])]
    · intro h1 h2
      simp only [mapDestinationToLine]
      have hA : ¬ ((decide (trimStr s = "KR Pura") || containsSubstr (trimStr s) "KR Pura")
          = true) := by
        intro hcond
        rw [Bool.or_eq_true] at hcond
        rcases hcond with he | hc
        · rw [decide_eq_true_eq] at he
          rw [he] at h1
          exact absurd h1 (by decide)
        · rw [h1] at hc
          cases hc
      have hB : ¬ ((decide (trimStr s = "Silk Board") || containsSubstr (trimStr s) "Silk Board")
          = true) := by
        intro hcond
        rw [Bool.or_eq_true] at hcond
        rcases hcond with he | hc
        · rw [decide_eq_true_eq] at he
          rw [he] at h2
          exact absurd h2 (by decide)
        · rw [h2] at hc
          cases hc
      rw [if_neg hs, if_neg hA, if_neg hB]

/-- C4 witness: a destination with surrounding text and whitespace that
contains "KR Pura" normalizes to "Purple Line". -/
theorem c4_normalizer_witness : mapDestinationToLine "  via KR Pura ext  " = "Purple Line" :=
  (c4_normalizer "  via KR Pura ext  ").1 (by decide)

/-- C10: when the static timetable for a stop has an empty route set, the
allowlist handed to the live adapter is empty, every live record is
filtered out, and the response is always the static (empty) result — live
data is never served for a stop whose static schedule is missing or
empty. -/
theorem c10_empty_static_blocks_live (sf : StaticFetch) (lo : LiveOutcome) (now : Int)
    (h : (loadStaticTimetable sf).routes = []) :
    (∀ l, liveDataOf lo (loadStaticTimetable sf).routes (loadStaticTimetable sf).towards now =
      some l → l.trips = []) ∧
    handleStopRequest sf lo now = { status := 200, body := loadStaticTimetable sf } := by
  have hempty : ∀ l,
      liveDataOf lo (loadStaticTimetable sf).routes (loadStaticTimetable sf).towards now =
        some l → l.trips = [] := by
    intro l hl
    rcases lo with _ | _ | ⟨iss, data⟩
    · cases hl
    · cases hl
    · simp only [liveDataOf] at hl
      split at hl
      · injection hl with he
        subst he
        rw [h, convert_trips_eq]
        have hfalse : ∀ r, keepRecord (some ([] : List String)) now r = false := by
          intro r
          rfl
        have hnil : data.filter (keepRecord (some ([] : List String)) now) = [] := by
          rw [List.filter_eq_nil_iff]
          intro r _
          rw [hfalse r]
          simp
        rw [hnil]
        rfl
      · cases hl
  refine ⟨hempty, ?_⟩
  unfold handleStopRequest
  rcases hld : liveDataOf lo (loadStaticTimetable sf).routes (loadStaticTimetable sf).towards now
    with _ | l
  · simp only [hld]
  · simp only [hld]
    have hnil := hempty l hld
    simp [hnil]

/-- C10 witness: with a failed static fetch (empty routes) a valid live
payload inside the window is still ignored and the empty static result is
returned. -/
theorem c10_empty_static_blocks_live_witness :
    handleStopRequest .failure (.payload true [⟨"R1", "KR Pura", "31-10-2025 14:30:00"⟩])
        1761899400000 =
      { status := 200, body := { trips := [], routes := [], towards := "Unknown" } } :=
  (c10_empty_static_blocks_live .failure
    (.payload true [⟨"R1", "KR Pura", "31-10-2025 14:30:00"⟩]) 1761899400000 rfl).2

/-- C5: a live-feed record contributes a trip only if its route identifier
is in the allowlist, and in the composed request path no trip whose
route_name is outside the static schedule's route set ever appears in a
live-derived TimetableResult. -/
theorem c5_route_allowlist :
    (∀ (data : List BMTCRecord) (ar : List String) (stt : Option String) (now : Int)
      (t : Trip), t ∈ (convertBMTCToTimetableFormat data (some ar) stt now).trips →
        t.route_name ∈ ar) ∧
    (∀ (sf : StaticFetch) (lo : LiveOutcome) (now : Int) (l : TimetableResult) (t : Trip),
      liveDataOf lo (loadStaticTimetable sf).routes (loadStaticTimetable sf).towards now =
        some l → t ∈ l.trips → t.route_name ∈ (loadStaticTimetable sf).routes) := by
  have hmain : ∀ (data : List BMTCRecord) (ar : List String) (stt : Option String) (now : Int)
      (t : Trip), t ∈ (convertBMTCToTimetableFormat data (some ar) stt now).trips →
        t.route_name ∈ ar := by
    intro data ar stt now t ht
    rw [convert_trips_eq, mem_sortTrips] at ht
    rcases List.mem_map.1 ht with ⟨r, hr, rfl⟩
    have hk : keepRecord (some ar) now r = true := (List.mem_filter.1 hr).2
    unfold keepRecord at hk
    rw [Bool.and_eq_true] at hk
    exact List.elem_iff.1 hk.1
  refine ⟨hmain, ?_⟩
  intro sf lo now l t hl ht
  rcases lo with _ | _ | ⟨iss, data⟩
  · cases hl
  · cases hl
  · simp only [liveDataOf] at hl
    split at hl
    · injection hl with he
      subst he
      exact hmain data _ _ now t ht
    · cases hl

/-- C5 witness: a concrete in-window record on an allowlisted route yields
a trip whose route is in the allowlist. -/
theorem c5_route_allowlist_witness : ("R5" : String) ∈ ["R5"] :=
  c5_route_allowlist.1 [⟨"R5", "Silk Board", "31-10-2025 09:30:00"⟩] ["R5"]
    (some "Yellow Line") 1761881400000
    { route_name := "R5", time := "09:30", towards := "Yellow Line" } (by decide)

/-- C6: among records passing the route allowlist, exactly those whose
parsed arrival instant is strictly before now or strictly more than
90 minutes (90*60*1000 ms) after now are excluded; the surviving records,
in order, are sorted and become the result's trips. -/
theorem c6_time_window (data : List BMTCRecord) (ar : List String) (stt : Option String)
    (now : Int) :
    (convertBMTCToTimetableFormat data (some ar) stt now).trips =
      sortTrips (((data.filter fun r => ar.contains r.routeno).filter
        (withinWindow now)).map (recordTrip stt)) := by
  rw [convert_trips_eq, List.filter_filter]
  have hpt : ∀ r, keepRecord (some ar) now r =
      (withinWindow now r && ar.contains r.routeno) := by
    intro r
    unfold keepRecord
    exact Bool.and_comm _ _
  congr 1
  congr 1
  exact List.filter_congr fun r _ => hpt r

/-- C7: for results of both the static parser and the live adapter, the
routes field is exactly the set of distinct route_name values across the
trips: every trip's route_name appears in routes, and every element of
routes is some trip's route_name. -/
theorem c7_routes_are_trip_routes :
    (∀ (csvText : String) (x : String),
      x ∈ (parseStaticCSV csvText).routes ↔
        ∃ t ∈ (parseStaticCSV csvText).trips, t.route_name = x) ∧
    (∀ (data : List BMTCRecord) (ar : Option (List String)) (stt : Option String) (now : Int)
      (x : String),
      x ∈ (convertBMTCToTimetableFormat data ar stt now).routes ↔
        ∃ t ∈ (convertBMTCToTimetableFormat data ar stt now).trips, t.route_name = x) := by
  have base : ∀ tw : Option String, routesInv ⟨[], [], tw⟩ := by
    intro tw x
    simp
  constructor
  · intro csvText x
    rw [parseStaticCSV_routes, parseStaticCSV_trips]
    exact foldl_staticStep_routesInv ((jsSplit '\n' csvText).drop 1) _ (base none) x
  · intro data ar stt now x
    rw [convert_routes, convert_trips]
    simp only [mem_sortTrips]
    exact foldl_convertStep_routesInv ar stt now data _ (base _) x

theorem foldl_staticStep_time_from :
    ∀ (rows : List String) (st : AccState) (t : Trip), t ∈ (rows.foldl staticStep st).trips →
      t ∈ st.trips ∨ ∃ row ∈ rows, t.time = (parseCSVLine (trimStr row)).getD 2 ""
  | [], _, _ => fun h => Or.inl h
  | row :: rest, st, t => by
    rw [List.foldl_cons]
    intro h
    rcases foldl_staticStep_time_from rest (staticStep st row) t h with h1 | ⟨row', hr, he⟩
    · simp only [staticStep] at h1
      split at h1
      · exact Or.inl h1
      · split at h1
        · rcases List.mem_append.1 h1 with h2 | h2
          · exact Or.inl h2
          · rw [List.mem_singleton] at h2
            subst h2
            exact Or.inr ⟨row, List.mem_cons_self _ _, rfl⟩
        · exact Or.inl h1
    · exact Or.inr ⟨row', List.mem_cons_of_mem _ hr, he⟩

/-- C3 counterexample: a static CSV whose rows are out of time order is
returned to the client unsorted — the static loader never sorts, so the
claim fails for static-sourced results (trips 10:00 then 09:00). -/
theorem c3_counterexample :
    ¬ ((handleStopRequest
        (.success "stop,route,time,towards\nA,R1,10:00,KR Pura\nB,R2,09:00,KR Pura") .fetchError
        0).body.trips.Pairwise timeKeyLe) := by
  decide

/-- C3 amended: only live-derived TimetableResults are sorted
non-decreasing by hours*60+minutes (whenever every produced time has a
numeric key, which holds for every parseable arrival); static results keep
CSV row order. -/
theorem c3_amended_live_sorted (data : List BMTCRecord) (ar : Option (List String))
    (stt : Option String) (now : Int)
    (h : ∀ t ∈ (convertBMTCToTimetableFormat data ar stt now).trips, (tripTimeKey t).isSome) :
    (convertBMTCToTimetableFormat data ar stt now).trips.Pairwise timeKeyLe := by
  rw [convert_trips] at h ⊢
  refine pairwise_sortTrips _ ?_
  intro a ha
  exact h a ((mem_sortTrips a _).2 ha)

/-- C3 amended witness: two concrete in-window records arriving out of
order come back sorted by time. -/
theorem c3_amended_live_sorted_witness :
    (convertBMTCToTimetableFormat
      [⟨"Z1", "KR Pura", "31-10-2025 14:30:00"⟩, ⟨"Z2", "KR Pura", "31-10-2025 14:10:00"⟩]
      (some ["Z1", "Z2"]) (some "Purple Line") 1761899400000).trips.Pairwise timeKeyLe :=
  c3_amended_live_sorted
    [⟨"Z1", "KR Pura", "31-10-2025 14:30:00"⟩, ⟨"Z2", "KR Pura", "31-10-2025 14:10:00"⟩]
    (some ["Z1", "Z2"]) (some "Purple Line") 1761899400000 (by decide)

/-- C8: the CSV parser trims every field including the final one (so each
field is a fixed point of trim); a quoted field `"a,b"` parses to the
literal `a,b` with surrounding fields trimmed; an unterminated quote does
not fail — the accumulated fields are returned; and the static loader
skips the header row (index 0) and rows with fewer than 4 columns. -/
theorem c8_csv_parsing :
    (∀ (line f : String), f ∈ parseCSVLine line → f = trimStr f) ∧
    parseCSVLine "x,\"a,b\", c " = ["x", "a,b", "c"] ∧
    parseCSVLine "a,\"bc" = ["a", "bc"] ∧
    parseStaticCSV "stop,route,time,towards\nonly,three,cols\nS1,R7,08:15,Silk Board" =
      { trips := [{ route_name := "R7", time := "08:15", towards := "Yellow Line" }],
        routes := ["R7"], towards := "Yellow Line" } :=
  ⟨parseCSVLine_mem_trim, by decide, by decide, by decide⟩

/-- C8 witness: the quoted field of the concrete line is a trim fixed
point. -/
theorem c8_csv_parsing_witness : ("a,b" : String) = trimStr "a,b" :=
  c8_csv_parsing.1 "x,\"a,b\", c " "a,b" (by decide)

/-- C9 counterexample: a static CSV whose time column is `HH:MM:SS`
reaches the client verbatim — the static parser does not reformat, so the
returned trip's time `"10:00:00"` is not of `HH:MM` shape. -/
theorem c9_counterexample :
    (handleStopRequest (.success "stop,route,time,towards\nA,R1,10:00:00,KR Pura") .fetchError
        0).body.trips.map Trip.time = ["10:00:00"] ∧ isHHMM "10:00:00" = false := by
  constructor
  · decide
  · decide

/-- C9 amended: trips produced by the live adapter have `HH:MM`-shaped
times except for records whose arrival string is unrecognizable, which get
the sentinel `"NaN:NaN"`; trips from the static parser carry CSV column 2
verbatim, so their time has `HH:MM` shape only if the file provides it. -/
theorem c9_amended_time_shape :
    (∀ (data : List BMTCRecord) (ar : Option (List String)) (stt : Option String) (now : Int)
      (t : Trip), t ∈ (convertBMTCToTimetableFormat data ar stt now).trips →
        isHHMM t.time = true ∨ t.time = "NaN:NaN") ∧
    (∀ (csvText : String) (t : Trip), t ∈ (parseStaticCSV csvText).trips →
      ∃ row ∈ (jsSplit '\n' csvText).drop 1, t.time = (parseCSVLine (trimStr row)).getD 2 "") := by
  constructor
  · intro data ar stt now t ht
    rw [convert_trips_eq, mem_sortTrips] at ht
    rcases List.mem_map.1 ht with ⟨r, _, rfl⟩
    exact timeStringOf_shape r
  · intro csvText t ht
    rw [parseStaticCSV_trips] at ht
    rcases foldl_staticStep_time_from _ _ t ht with h | h
    · exact absurd h (List.not_mem_nil t)
    · exact h

/-- C9 amended witness: a concrete live record with a parseable arrival
yields an `HH:MM` time. -/
theorem c9_amended_time_shape_witness :
    isHHMM (Trip.mk "R1" "14:30" "Purple Line").time = true ∨
      (Trip.mk "R1" "14:30" "Purple Line").time = "NaN:NaN" :=
  c9_amended_time_shape.1 [⟨"R1", "KR Pura", "31-10-2025 14:30:00"⟩] (some ["R1"])
    (some "Purple Line") 1761899400000 ⟨"R1", "14:30", "Purple Line"⟩ (by decide)

end OrrBus
